import Mathlib

/-!
Verification of the tier-list drag-and-drop application (a Next.js page).

The development shallowly embeds the application's state and handlers:

* the `Droppable` widget's drag-enter counter (`DroppableState`, `droppableStep`);
* the tier-list state (`HomeState`): the tier list, the candidate pool and the
  two drag selections, together with the handlers `moveCandidateItemToTier`,
  `moveTierItemToAnotherTier`, `handleDropOnTierList`,
  `handleDropOnCandidateList` and `resetList`.

JavaScript `Set` objects hold object references in insertion order with no
duplicate references; they are embedded as `List Item` together with
`jsSetOfList`, the deduplication performed by the `Set` constructor.  Object
identity is embedded as equality of the `Item` structure, each distinct runtime
object carrying a distinct `ref` tag; `i.label === item.label` on the optional
`label` field is equality of `Option String` (matching `undefined === undefined`
being true in JavaScript).
-/

namespace Tierlist

/-- Drag events received by the `Droppable` component: `enter`, `leave`, `drop`
(the `over` event does not touch the counter and is omitted). -/
inductive DragEvent where
  | enter
  | leave
  | drop
deriving DecidableEq, Repr

/-- Observable state of the `Droppable` component: the `dragEnterCounter`
React state plus counters for the invocations of the external `onDragLeave`
and `onDrop` callbacks. -/
structure DroppableState where
  dragEnterCounter : Int
  leaveEvents : Nat
  dropEvents : Nat
deriving DecidableEq, Repr

/-- One step of the `Droppable` component, transcribing its three handlers:
`onDragEnter` increments the counter; `onDragLeave` decrements it and invokes
the external callback when the resulting counter is at most 0; `onDrop` resets
the counter to 0 and invokes the external drop callback. -/
def droppableStep (s : DroppableState) : DragEvent → DroppableState
  | .enter => { s with dragEnterCounter := s.dragEnterCounter + 1 }
  | .leave =>
      let nextDragEnterCounter := s.dragEnterCounter - 1
      { s with
        dragEnterCounter := nextDragEnterCounter,
        leaveEvents :=
          if nextDragEnterCounter ≤ 0 then s.leaveEvents + 1 else s.leaveEvents }
  | .drop => { s with dragEnterCounter := 0, dropEvents := s.dropEvents + 1 }

/-- Initial `Droppable` state: `React.useState<number>(0)` and no callback
invocations yet. -/
def droppableInit : DroppableState :=
  { dragEnterCounter := 0, leaveEvents := 0, dropEvents := 0 }

/-- Run the `Droppable` component over a sequence of drag events from the
initial state. -/
def runDroppable (events : List DragEvent) : DroppableState :=
  events.foldl droppableStep droppableInit

/-- Reading of claim C4's trigger condition, modelled from the spec's words:
the leave callback fires only when the counter crosses to at most 0, i.e. the
counter was positive before the leave and at most 0 after it. -/
def leaveCrossesToNonpositive (s : DroppableState) : Prop :=
  0 < s.dragEnterCounter ∧ s.dragEnterCounter - 1 ≤ 0

/-- Item of the tier list: optional label and optional image source.  The
`ref` field embeds JavaScript object identity: distinct runtime objects carry
distinct `ref` tags, and `Set` membership compares references. -/
structure Item where
  ref : Nat
  label : Option String
  imgSrc : Option String
deriving DecidableEq, Repr

/-- Tier of the tier list: a label, a display colour class and a `Set` of
items, embedded as an insertion-ordered duplicate-free list.  The unused
optional `order` and `color` fields of the source type are never assigned and
are omitted. -/
structure Tier where
  label : String
  colorClass : Option String
  items : List Item
deriving DecidableEq, Repr

/-- Deduplication performed by the JavaScript `Set` constructor: keep the
first occurrence of each element, in insertion order. -/
def jsSetOfList {α : Type} [DecidableEq α] : List α → List α
  | [] => []
  | x :: xs => x :: jsSetOfList (xs.filter (fun y => y ≠ x))
  termination_by l => l.length
  decreasing_by
    simpa using Nat.lt_succ_of_le (List.length_filter_le _ xs)

/-- State of the `Home` page: the tier list, the candidate pool and the two
drag selections (`draggedCandidateItem` for pool-origin drags,
`draggedTierItem` for tier-origin drags). -/
structure HomeState where
  tierlist : List Tier
  candidatelist : List Item
  draggedCandidateItem : Option Item
  draggedTierItem : Option Item
deriving DecidableEq, Repr

/-- Handler `dragCandidateItem`: record the pool-origin drag selection. -/
def dragCandidateItem (s : HomeState) (item : Item) : HomeState :=
  { s with draggedCandidateItem := some item }

/-- Handler `undragCandidateItem`: clear the pool-origin drag selection. -/
def undragCandidateItem (s : HomeState) : HomeState :=
  { s with draggedCandidateItem := none }

/-- Handler `dragTierItem`: record the tier-origin drag selection. -/
def dragTierItem (s : HomeState) (item : Item) : HomeState :=
  { s with draggedTierItem := some item }

/-- Handler `undragTierItem`: clear the tier-origin drag selection. -/
def undragTierItem (s : HomeState) : HomeState :=
  { s with draggedTierItem := none }

/-- Handler `removeItemFromCandidatelist`: `candidatelist.delete(item)`, the
`Set` deletion by object reference, followed by re-assigning the pool. -/
def removeItemFromCandidatelist (s : HomeState) (item : Item) : HomeState :=
  { s with candidatelist := s.candidatelist.filter (fun i => i ≠ item) }

/-- Helper `removeItemFromTier`: rebuild the origin tier with a new `Set`
holding those items whose label differs from the dragged item's label. -/
def removeItemFromTier (tierOrigin : Tier) (item : Item) : Tier :=
  { tierOrigin with
    items := jsSetOfList (tierOrigin.items.filter (fun i => i.label ≠ item.label)) }

/-- Helper `addItemToTier`: rebuild the tier with a new `Set` of the old items
followed by the dragged item. -/
def addItemToTier (tier : Tier) (item : Item) : Tier :=
  { tier with items := jsSetOfList (tier.items ++ [item]) }

/-- Handler `moveCandidateItemToTier`: append the item to the target tier
(matched by tier label), remove it from the pool, clear the pool-origin drag
selection. -/
def moveCandidateItemToTier (s : HomeState) (tier : Tier) (item : Item) : HomeState :=
  let s₁ := { s with
    tierlist := s.tierlist.map
      (fun t => if t.label = tier.label then addItemToTier t item else t) }
  let s₂ := removeItemFromCandidatelist s₁ item
  { s₂ with draggedCandidateItem := none }

/-- Origin-tier scan used by the tier-origin drop handlers:
`tierlist.find((t) => Array.from(t.items).find((i) => i.label === item.label))`. -/
def findOriginTier (tl : List Tier) (item : Item) : Option Tier :=
  tl.find? (fun t => (t.items.find? (fun i => i.label = item.label)).isSome)

/-- Tier-list part of `moveTierItemToAnotherTier`: scan for the origin tier;
on failure report `none` (the handler returns early); on success remove the
dragged label from the origin tier and append the item to the target tier,
both matched by tier label. -/
def moveTierItemToAnotherTierTl (tl : List Tier) (targetTier : Tier) (item : Item) :
    Option (List Tier) :=
  match findOriginTier tl item with
  | none => none
  | some originTier =>
      some ((tl.map
          (fun t => if t.label = originTier.label then removeItemFromTier originTier item else t)).map
        (fun t => if t.label = targetTier.label then addItemToTier t item else t))

/-- Handler `moveTierItemToAnotherTier`: on a failed origin scan the handler
returns before any state update; otherwise it installs the new tier list and
clears the tier-origin drag selection. -/
def moveTierItemToAnotherTier (s : HomeState) (targetTier : Tier) (item : Item) : HomeState :=
  match moveTierItemToAnotherTierTl s.tierlist targetTier item with
  | none => s
  | some tl => { s with tierlist := tl, draggedTierItem := none }

/-- Handler `handleDropOnTierList`: run the pool-origin move when the
pool-origin selection is set, then the tier-origin move when the tier-origin
selection is set.  Both branches read the `tierlist` captured at handler entry
(the React closure value), so when both selections are set the second
`setTierlist` overwrites the first. -/
def handleDropOnTierList (s : HomeState) (tier : Tier) : HomeState :=
  let s₁ := match s.draggedCandidateItem with
    | some item => moveCandidateItemToTier s tier item
    | none => s
  match s.draggedTierItem with
  | none => s₁
  | some item =>
      match moveTierItemToAnotherTierTl s.tierlist tier item with
      | none => s₁
      | some tl => { s₁ with tierlist := tl, draggedTierItem := none }

/-- Handler `addItemToCandidate`: rebuild the pool as a new `Set` of the old
pool followed by the item. -/
def addItemToCandidate (s : HomeState) (item : Item) : HomeState :=
  { s with candidatelist := jsSetOfList (s.candidatelist ++ [item]) }

/-- Handler `handleDropOnCandidateList`: a pool-origin selection does nothing;
a tier-origin selection scans for the origin tier, returns early on failure,
and otherwise removes the dragged label from the origin tier, appends the item
to the pool and clears the tier-origin drag selection. -/
def handleDropOnCandidateList (s : HomeState) : HomeState :=
  match s.draggedTierItem with
  | none => s
  | some item =>
      match findOriginTier s.tierlist item with
      | none => s
      | some originTier =>
          let s₁ := { s with
            tierlist := s.tierlist.map
              (fun t => if t.label = originTier.label then removeItemFromTier originTier item else t) }
          let s₂ := addItemToCandidate s₁ item
          { s₂ with draggedTierItem := none }

/-- Handler `resetList`: collect the items of every tier (a fold appending
each tier's items), empty every tier, and rebuild the pool as a new `Set` of
the old pool followed by the collected items. -/
def resetList (s : HomeState) : HomeState :=
  let itemsInTierlist : List Item :=
    s.tierlist.foldl (fun result tier => result ++ tier.items) []
  let tierlistWithoutItems :=
    s.tierlist.map (fun tier => { tier with items := [] })
  { s with
    tierlist := tierlistWithoutItems,
    candidatelist := jsSetOfList (s.candidatelist ++ itemsInTierlist) }

/-- Seed item of tier S. -/
def vivo : Item :=
  { ref := 0, label := some "Vivo",
    imgSrc := some "https://fdn2.gsmarena.com/vv/bigpic/vivo-y16.jpg" }

/-- First seed item of the candidate pool. -/
def item1 : Item :=
  { ref := 1, label := some "Item 1",
    imgSrc := some "https://fdn2.gsmarena.com/vv/bigpic/vivo-iqoo-z6-lite-5g.jpg" }

/-- Second seed item of the candidate pool. -/
def item2 : Item :=
  { ref := 2, label := some "Item 2",
    imgSrc := some "https://fdn2.gsmarena.com/vv/bigpic/realme-c30s.jpg" }

/-- Third seed item of the candidate pool. -/
def item3 : Item :=
  { ref := 3, label := some "Item 3",
    imgSrc := some "https://fdn2.gsmarena.com/vv/bigpic/oppo-k10x-.jpg" }

/-- Seed tier list: the seven fixed tiers, tier S holding the Vivo item. -/
def seedTierlist : List Tier :=
  [ { label := "S", colorClass := some "bg-indigo-500 text-white", items := [vivo] },
    { label := "A", colorClass := some "bg-sky-500 text-white", items := [] },
    { label := "B", colorClass := some "bg-green-500 text-white", items := [] },
    { label := "C", colorClass := some "bg-lime-500 text-white", items := [] },
    { label := "D", colorClass := some "bg-yellow-500 text-white", items := [] },
    { label := "E", colorClass := some "bg-orange-500 text-white", items := [] },
    { label := "F", colorClass := some "bg-red-500 text-white", items := [] } ]

/-- Seed state of the `Home` page. -/
def seedState : HomeState :=
  { tierlist := seedTierlist,
    candidatelist := [item1, item2, item3],
    draggedCandidateItem := none,
    draggedTierItem := none }

/-- Labels of a tier's items, in order. -/
def Tier.itemLabels (t : Tier) : List (Option String) :=
  t.items.map Item.label

/-- Labels of the items of every tier of a tier list, in order. -/
def tierlistLabels (tl : List Tier) : List (Option String) :=
  (tl.map Tier.itemLabels).flatten

/-- Labels of every item in the state: the pool followed by every tier. -/
def allItemLabels (s : HomeState) : List (Option String) :=
  s.candidatelist.map Item.label ++ tierlistLabels s.tierlist

/-- Total number of items across the candidate pool and all tiers. -/
def totalItemCount (s : HomeState) : Nat :=
  s.candidatelist.length + (s.tierlist.map (fun t => t.items.length)).sum

/-- Well-formed state: no item label occurs twice across the pool and the
tiers, and tier labels are pairwise distinct.  This is the data-model
invariant of the specification, and it holds of the seed state. -/
def Wf (s : HomeState) : Prop :=
  (allItemLabels s).Nodup ∧ (s.tierlist.map Tier.label).Nodup

instance (s : HomeState) : Decidable (Wf s) :=
  inferInstanceAs (Decidable (_ ∧ _))

/-- Operations of the tier-list state machine, one per transition of the
specification's table: begin and end drag from the pool or from a tier, drop
on a tier with pool or tier origin, drop on the pool, and reset. -/
inductive Op where
  | beginDragPool (item : Item)
  | beginDragTier (item : Item)
  | endDragPool
  | endDragTier
  | dropOnTierPoolOrigin (tier : Tier)
  | dropOnTierTierOrigin (tier : Tier)
  | dropOnPool
  | reset

/-- One transition of the tier-list state machine.  Drag-start events fire
only on items rendered in the pool (respectively in a tier), and drop events
fire only on tiers rendered from the current tier list, so those operations
are guarded by the corresponding membership; each effect is the transcribed
handler. -/
def step (s : HomeState) : Op → HomeState
  | .beginDragPool item =>
      if item ∈ s.candidatelist then dragCandidateItem s item else s
  | .beginDragTier item =>
      if ∃ t ∈ s.tierlist, item ∈ t.items then dragTierItem s item else s
  | .endDragPool => undragCandidateItem s
  | .endDragTier => undragTierItem s
  | .dropOnTierPoolOrigin tier =>
      if tier ∈ s.tierlist then
        match s.draggedCandidateItem with
        | some item => moveCandidateItemToTier s tier item
        | none => s
      else s
  | .dropOnTierTierOrigin tier =>
      if tier ∈ s.tierlist then
        match s.draggedTierItem with
        | some item => moveTierItemToAnotherTier s tier item
        | none => s
      else s
  | .dropOnPool => handleDropOnCandidateList s
  | .reset => resetList s

/-- Inductive invariant of the state machine: the state is well formed and a
set pool-origin drag selection refers to an item actually in the pool. -/
def Inv (s : HomeState) : Prop :=
  Wf s ∧ ∀ i : Item, s.draggedCandidateItem = some i → i ∈ s.candidatelist

/-- C4 (counterexample): with the counter at 0 and no pending enters, a single
leave event already invokes the external leave callback, although the counter
does not cross from positive to nonpositive; so the callback is not triggered
only on a crossing to at most 0. -/
theorem C4_counterexample :
    (droppableStep droppableInit DragEvent.leave).leaveEvents = 1 ∧
    ¬ leaveCrossesToNonpositive droppableInit := by
  refine ⟨rfl, fun h => ?_⟩
  simp [leaveCrossesToNonpositive, droppableInit] at h

/-- C4 (amended): each leave decrements the counter, and the external leave
callback is invoked on exactly those leaves whose resulting counter is at most
0; repeated leaves while the counter is already at most 0 each invoke the
callback again, and the counter may go negative. -/
theorem C4_leave_callback (s : DroppableState) :
    (droppableStep s DragEvent.leave).dragEnterCounter = s.dragEnterCounter - 1 ∧
    ((droppableStep s DragEvent.leave).leaveEvents =
      if s.dragEnterCounter - 1 ≤ 0 then s.leaveEvents + 1 else s.leaveEvents) :=
  ⟨rfl, rfl⟩

/-- C5: from the initial counter 0, the sequence enter, enter, leave, leave
invokes the external leave callback exactly once and not yet before the second
leave; the sequence enter, leave, enter, leave invokes it exactly twice. -/
theorem C5_droppable_sequences :
    (runDroppable [DragEvent.enter, DragEvent.enter, DragEvent.leave,
        DragEvent.leave]).leaveEvents = 1 ∧
    (runDroppable [DragEvent.enter, DragEvent.enter, DragEvent.leave]).leaveEvents = 0 ∧
    (runDroppable [DragEvent.enter, DragEvent.leave, DragEvent.enter,
        DragEvent.leave]).leaveEvents = 2 := by
  decide

/-- C9: for every prior value of the drag-enter counter, a drop event resets
the counter to exactly 0 and invokes the external drop callback once. -/
theorem C9_drop_resets_counter (s : DroppableState) :
    (droppableStep s DragEvent.drop).dragEnterCounter = 0 ∧
    (droppableStep s DragEvent.drop).dropEvents = s.dropEvents + 1 :=
  ⟨rfl, rfl⟩

theorem mem_jsSetOfList {α : Type} [DecidableEq α] {a : α} (l : List α) :
    a ∈ jsSetOfList l ↔ a ∈ l := by
  induction l using jsSetOfList.induct with
  | case1 => simp [jsSetOfList]
  | case2 x xs ih =>
      simp only [jsSetOfList, List.mem_cons]
      rw [ih, List.mem_filter]
      by_cases hax : a = x
      · simp [hax]
      · simp [hax]

theorem jsSetOfList_eq_self {α : Type} [DecidableEq α] {l : List α} (h : l.Nodup) :
    jsSetOfList l = l := by
  induction l with
  | nil => simp [jsSetOfList]
  | cons x xs ih =>
      rw [List.nodup_cons] at h
      have hfilter : xs.filter (fun y => y ≠ x) = xs :=
        List.filter_eq_self.mpr
          (fun a ha => decide_eq_true (fun hax : a = x => h.1 (hax ▸ ha)))
      simp only [jsSetOfList]
      rw [hfilter, ih h.2]

theorem perm_cons_filter_ne {α : Type} [DecidableEq α] {l : List α} {a : α}
    (h : l.Nodup) (ha : a ∈ l) :
    List.Perm l (a :: l.filter (fun y => y ≠ a)) := by
  induction l with
  | nil => cases ha
  | cons b t ih =>
      rw [List.nodup_cons] at h
      rcases List.mem_cons.mp ha with hab | hat
      · have h1 : (b :: t).filter (fun y => y ≠ a) = t := by
          rw [List.filter_cons, if_neg (by simp [hab])]
          exact List.filter_eq_self.mpr
            (fun c hc => decide_eq_true (fun hca : c = a => h.1 ((hca.trans hab) ▸ hc)))
        rw [h1, hab]
      · have hba : b ≠ a := fun hba => h.1 (hba ▸ hat)
        have h1 : (b :: t).filter (fun y => y ≠ a) = b :: t.filter (fun y => y ≠ a) := by
          rw [List.filter_cons, if_pos (decide_eq_true hba)]
        rw [h1]
        exact ((ih h.2 hat).cons b).trans (List.Perm.swap a b _)

theorem map_filter_ne {α β : Type} [DecidableEq α] [DecidableEq β] (f : α → β)
    (l : List α) (b : β) :
    (l.filter (fun x => f x ≠ b)).map f = (l.map f).filter (fun y => y ≠ b) := by
  induction l with
  | nil => rfl
  | cons x xs ih =>
      rw [List.filter_cons, List.map_cons, List.filter_cons]
      by_cases hx : f x = b
      · rw [if_neg (by simp [hx]), if_neg (by simp [hx]), ih]
      · rw [if_pos (decide_eq_true hx), if_pos (decide_eq_true hx), List.map_cons, ih]

theorem tierlistLabels_nil : tierlistLabels [] = [] := rfl

theorem tierlistLabels_cons (t : Tier) (tl : List Tier) :
    tierlistLabels (t :: tl) = t.itemLabels ++ tierlistLabels tl := by
  simp [tierlistLabels]

theorem itemLabels_subset_tierlistLabels {t : Tier} {tl : List Tier} (ht : t ∈ tl)
    {L : Option String} (hL : L ∈ t.itemLabels) : L ∈ tierlistLabels tl :=
  List.mem_flatten.mpr ⟨t.itemLabels, List.mem_map_of_mem Tier.itemLabels ht, hL⟩

theorem itemLabels_nodup_of_mem {tl : List Tier} (hn : (tierlistLabels tl).Nodup)
    {t : Tier} (ht : t ∈ tl) : t.itemLabels.Nodup := by
  induction tl with
  | nil => cases ht
  | cons u us ih =>
      rw [tierlistLabels_cons, List.nodup_append] at hn
      rcases List.mem_cons.mp ht with rfl | hus
      · exact hn.1
      · exact ih hn.2.1 hus

theorem tier_eq_of_label_mem {tl : List Tier} (hn : (tierlistLabels tl).Nodup)
    {A B : Tier} (hA : A ∈ tl) (hB : B ∈ tl) {L : Option String}
    (hLA : L ∈ A.itemLabels) (hLB : L ∈ B.itemLabels) : A = B := by
  induction tl with
  | nil => cases hA
  | cons u us ih =>
      rw [tierlistLabels_cons, List.nodup_append] at hn
      rcases List.mem_cons.mp hA with rfl | hAu
      · rcases List.mem_cons.mp hB with rfl | hBu
        · rfl
        · exact (hn.2.2 hLA (itemLabels_subset_tierlistLabels hBu hLB)).elim
      · rcases List.mem_cons.mp hB with rfl | hBu
        · exact (hn.2.2 hLB (itemLabels_subset_tierlistLabels hAu hLA)).elim
        · exact ih hn.2.1 hAu hBu

theorem map_ite_eq_self {tl : List Tier} {L : String} (g : Tier → Tier)
    (h : ∀ t ∈ tl, t.label ≠ L) :
    tl.map (fun t => if t.label = L then g t else t) = tl := by
  rw [List.map_congr_left (fun t ht => if_neg (h t ht))]
  exact List.map_id' tl

theorem label_map_ite {tl : List Tier} {L : String} (g : Tier → Tier)
    (hg : ∀ t : Tier, t.label = L → (g t).label = t.label) :
    (tl.map (fun t => if t.label = L then g t else t)).map Tier.label
      = tl.map Tier.label := by
  rw [List.map_map]
  refine List.map_congr_left (fun t ht => ?_)
  by_cases h : t.label = L
  · simp [Function.comp, h, hg t h]
  · simp [Function.comp, h]

theorem tierlistLabels_update (g : Tier → Tier) {tl : List Tier}
    (hlab : (tl.map Tier.label).Nodup) {T : Tier} (hT : T ∈ tl) :
    (tierlistLabels (tl.map fun t => if t.label = T.label then g t else t)
        : Multiset (Option String)) + (T.itemLabels : Multiset (Option String))
      = (tierlistLabels tl : Multiset (Option String))
          + ((g T).itemLabels : Multiset (Option String)) := by
  induction tl with
  | nil => cases hT
  | cons u us ih =>
      rw [List.map_cons, List.nodup_cons] at hlab
      rcases List.mem_cons.mp hT with rfl | hus
      · have hmap : us.map (fun t => if t.label = T.label then g t else t) = us :=
          map_ite_eq_self g
            (fun t ht hlabel => hlab.1 (hlabel ▸ List.mem_map_of_mem Tier.label ht))
        simp only [List.map_cons, if_pos rfl, hmap, tierlistLabels_cons]
        rw [← Multiset.coe_add, ← Multiset.coe_add]
        ac_rfl
      · have hne : u.label ≠ T.label :=
          fun h => hlab.1 (h ▸ List.mem_map_of_mem Tier.label hus)
        simp only [List.map_cons, if_neg hne, tierlistLabels_cons]
        rw [← Multiset.coe_add, ← Multiset.coe_add, add_assoc, add_assoc,
          ih hlab.2 hus]

theorem map_label_flatten (tl : List Tier) :
    ((tl.map Tier.items).flatten).map Item.label = tierlistLabels tl := by
  rw [List.map_flatten, List.map_map]
  rfl

theorem foldl_append_items (tl : List Tier) (acc : List Item) :
    tl.foldl (fun result tier => result ++ tier.items) acc
      = acc ++ (tl.map Tier.items).flatten := by
  induction tl generalizing acc with
  | nil => simp
  | cons t ts ih => simp [List.foldl_cons, ih, List.append_assoc]

theorem length_allItemLabels (s : HomeState) :
    (allItemLabels s).length = totalItemCount s := by
  rw [allItemLabels, totalItemCount, List.length_append, List.length_map, tierlistLabels,
    List.length_flatten, List.map_map]
  congr 1
  exact congrArg List.sum (List.map_congr_left (fun t _ => by simp [Tier.itemLabels]))

theorem findOriginTier_mem {tl : List Tier} {i : Item} {A : Tier}
    (h : findOriginTier tl i = some A) : A ∈ tl :=
  List.mem_of_find?_eq_some h

theorem findOriginTier_label_mem {tl : List Tier} {i : Item} {A : Tier}
    (h : findOriginTier tl i = some A) : i.label ∈ A.itemLabels := by
  have hp := List.find?_some h
  rw [Option.isSome_iff_exists] at hp
  obtain ⟨x, hx⟩ := hp
  have hxmem := List.mem_of_find?_eq_some hx
  have hxlab := List.find?_some hx
  rw [decide_eq_true_eq] at hxlab
  exact hxlab ▸ List.mem_map_of_mem Item.label hxmem

theorem findOriginTier_isSome {tl : List Tier} {i : Item} {T : Tier}
    (hT : T ∈ tl) (hmem : i.label ∈ T.itemLabels) : (findOriginTier tl i).isSome := by
  obtain ⟨x, hx, hlab⟩ := List.mem_map.mp hmem
  rw [findOriginTier, List.find?_isSome]
  exact ⟨T, hT, List.find?_isSome.mpr ⟨x, hx, decide_eq_true hlab⟩⟩

theorem findOriginTier_eq {tl : List Tier} (hn : (tierlistLabels tl).Nodup)
    {i : Item} {T : Tier} (hT : T ∈ tl) (hmem : i.label ∈ T.itemLabels) :
    findOriginTier tl i = some T := by
  obtain ⟨A, hA⟩ := Option.isSome_iff_exists.mp (findOriginTier_isSome hT hmem)
  have hAmem := findOriginTier_mem hA
  have hAlab := findOriginTier_label_mem hA
  rw [hA]
  exact congrArg some (tier_eq_of_label_mem hn hAmem hT hAlab hmem)

theorem wf_poolLabels_nodup {s : HomeState} (h : Wf s) :
    (s.candidatelist.map Item.label).Nodup := by
  obtain ⟨h1, _⟩ := h
  rw [allItemLabels, List.nodup_append] at h1
  exact h1.1

theorem wf_pool_nodup {s : HomeState} (h : Wf s) : s.candidatelist.Nodup :=
  List.Nodup.of_map Item.label (wf_poolLabels_nodup h)

theorem wf_tierlistLabels_nodup {s : HomeState} (h : Wf s) :
    (tierlistLabels s.tierlist).Nodup := by
  obtain ⟨h1, _⟩ := h
  rw [allItemLabels, List.nodup_append] at h1
  exact h1.2.1

theorem wf_disjoint {s : HomeState} (h : Wf s) (L : Option String)
    (hL : L ∈ s.candidatelist.map Item.label) (hL' : L ∈ tierlistLabels s.tierlist) :
    False := by
  obtain ⟨h1, _⟩ := h
  rw [allItemLabels, List.nodup_append] at h1
  exact h1.2.2 hL hL'

theorem wf_tier_items_nodup {s : HomeState} (h : Wf s) {t : Tier}
    (ht : t ∈ s.tierlist) : t.items.Nodup :=
  List.Nodup.of_map Item.label (itemLabels_nodup_of_mem (wf_tierlistLabels_nodup h) ht)

theorem addItemToTier_label (t : Tier) (i : Item) :
    (addItemToTier t i).label = t.label := rfl

theorem removeItemFromTier_label (t : Tier) (i : Item) :
    (removeItemFromTier t i).label = t.label := rfl

theorem mem_addItemToTier (t : Tier) (i : Item) : i ∈ (addItemToTier t i).items := by
  rw [addItemToTier]
  exact (mem_jsSetOfList _).mpr (List.mem_append.mpr (Or.inr (List.mem_singleton.mpr rfl)))

theorem addItemToTier_itemLabels {t : Tier} {i : Item} (hnd : t.items.Nodup)
    (hni : i ∉ t.items) :
    (addItemToTier t i).itemLabels = t.itemLabels ++ [i.label] := by
  have hnodup : (t.items ++ [i]).Nodup := by
    rw [List.nodup_append]
    refine ⟨hnd, List.nodup_singleton i, fun a ha ha' => ?_⟩
    rw [List.mem_singleton] at ha'
    exact hni (ha' ▸ ha)
  show (jsSetOfList (t.items ++ [i])).map Item.label = t.items.map Item.label ++ [i.label]
  rw [jsSetOfList_eq_self hnodup, List.map_append]
  rfl

theorem removeItemFromTier_itemLabels {t : Tier} {i : Item} (hnd : t.items.Nodup) :
    (removeItemFromTier t i).itemLabels
      = t.itemLabels.filter (fun y => y ≠ i.label) := by
  show (jsSetOfList (t.items.filter (fun x => x.label ≠ i.label))).map Item.label = _
  rw [jsSetOfList_eq_self (hnd.filter _), map_filter_ne]
  rfl

theorem moveCandidateItemToTier_labels {s : HomeState} {T : Tier} {i : Item}
    (hwf : Wf s) (hi : i ∈ s.candidatelist) (hT : T ∈ s.tierlist) :
    (allItemLabels (moveCandidateItemToTier s T i) : Multiset (Option String))
      = (allItemLabels s : Multiset (Option String)) := by
  have hlab : (s.tierlist.map Tier.label).Nodup := hwf.2
  have hpoolperm : List.Perm (s.candidatelist.map Item.label)
      (List.map Item.label (i :: s.candidatelist.filter (fun y => y ≠ i))) :=
    (perm_cons_filter_ne (wf_pool_nodup hwf) hi).map Item.label
  have h1 : (s.candidatelist.map Item.label : Multiset (Option String))
      = {i.label} + ↑((s.candidatelist.filter (fun y => y ≠ i)).map Item.label) := by
    rw [Multiset.coe_eq_coe.mpr hpoolperm, List.map_cons, ← Multiset.cons_coe,
      ← Multiset.singleton_add]
  have hiT : i ∉ T.items := fun hmem =>
    wf_disjoint hwf i.label (List.mem_map_of_mem Item.label hi)
      (itemLabels_subset_tierlistLabels hT (List.mem_map_of_mem Item.label hmem))
  have hadd : (addItemToTier T i).itemLabels = T.itemLabels ++ [i.label] :=
    addItemToTier_itemLabels (wf_tier_items_nodup hwf hT) hiT
  have h2 : (tierlistLabels (s.tierlist.map
        (fun t => if t.label = T.label then addItemToTier t i else t))
        : Multiset (Option String))
      = ↑(tierlistLabels s.tierlist) + {i.label} := by
    have hupdate := tierlistLabels_update (fun t => addItemToTier t i) hlab hT
    rw [hadd] at hupdate
    have hre : (tierlistLabels s.tierlist : Multiset (Option String))
          + ↑(T.itemLabels ++ [i.label])
        = (↑(tierlistLabels s.tierlist) + {i.label}) + ↑T.itemLabels := by
      rw [← Multiset.coe_add, Multiset.coe_singleton]
      ac_rfl
    rw [hre] at hupdate
    exact add_right_cancel hupdate
  show ((s.candidatelist.filter (fun y => y ≠ i)).map Item.label
      ++ tierlistLabels (s.tierlist.map
        (fun t => if t.label = T.label then addItemToTier t i else t))
      : Multiset (Option String))
    = ((s.candidatelist.map Item.label ++ tierlistLabels s.tierlist : List (Option String))
      : Multiset (Option String))
  rw [← Multiset.coe_add, ← Multiset.coe_add, h1, h2]
  ac_rfl

theorem removeOrigin_labels {s : HomeState} (hwf : Wf s) {i : Item} {A : Tier}
    (hA : findOriginTier s.tierlist i = some A) :
    (tierlistLabels (s.tierlist.map
        (fun t => if t.label = A.label then removeItemFromTier A i else t))
        : Multiset (Option String)) + {i.label}
      = (tierlistLabels s.tierlist : Multiset (Option String)) := by
  have hlab : (s.tierlist.map Tier.label).Nodup := hwf.2
  have hAmem := findOriginTier_mem hA
  have hAlab := findOriginTier_label_mem hA
  have hAnodupL : A.itemLabels.Nodup :=
    itemLabels_nodup_of_mem (wf_tierlistLabels_nodup hwf) hAmem
  have hremove : (removeItemFromTier A i).itemLabels
      = A.itemLabels.filter (fun y => y ≠ i.label) :=
    removeItemFromTier_itemLabels (List.Nodup.of_map Item.label hAnodupL)
  have hperm : List.Perm A.itemLabels
      (i.label :: A.itemLabels.filter (fun y => y ≠ i.label)) :=
    perm_cons_filter_ne hAnodupL hAlab
  have hAL : (A.itemLabels : Multiset (Option String))
      = {i.label} + ↑(A.itemLabels.filter (fun y => y ≠ i.label)) := by
    rw [Multiset.coe_eq_coe.mpr hperm, ← Multiset.cons_coe, ← Multiset.singleton_add]
  have hupdate := tierlistLabels_update (fun _ => removeItemFromTier A i) hlab hAmem
  rw [hremove, hAL] at hupdate
  have hfin : ((tierlistLabels (s.tierlist.map
        (fun t => if t.label = A.label then removeItemFromTier A i else t))
        : Multiset (Option String)) + {i.label})
        + ↑(A.itemLabels.filter (fun y => y ≠ i.label))
      = (tierlistLabels s.tierlist : Multiset (Option String))
        + ↑(A.itemLabels.filter (fun y => y ≠ i.label)) := by
    rw [← hupdate]
    ac_rfl
  exact add_right_cancel hfin

theorem addTarget_labels {tl1 : List Tier} (hlab1 : (tl1.map Tier.label).Nodup)
    (hTLnodup : (tierlistLabels tl1).Nodup)
    {T1 : Tier} (hT1 : T1 ∈ tl1) {i : Item} (hiTL : i.label ∉ tierlistLabels tl1) :
    (tierlistLabels (tl1.map
        (fun t => if t.label = T1.label then addItemToTier t i else t))
        : Multiset (Option String))
      = ↑(tierlistLabels tl1) + {i.label} := by
  have hiT1 : i ∉ T1.items := fun hmem =>
    hiTL (itemLabels_subset_tierlistLabels hT1 (List.mem_map_of_mem Item.label hmem))
  have hadd : (addItemToTier T1 i).itemLabels = T1.itemLabels ++ [i.label] :=
    addItemToTier_itemLabels
      (List.Nodup.of_map Item.label (itemLabels_nodup_of_mem hTLnodup hT1)) hiT1
  have hupdate := tierlistLabels_update (fun t => addItemToTier t i) hlab1 hT1
  rw [hadd] at hupdate
  have hre : (tierlistLabels tl1 : Multiset (Option String))
        + ↑(T1.itemLabels ++ [i.label])
      = (↑(tierlistLabels tl1) + {i.label}) + ↑T1.itemLabels := by
    rw [← Multiset.coe_add, Multiset.coe_singleton]
    ac_rfl
  rw [hre] at hupdate
  exact add_right_cancel hupdate

theorem moveTierItemToAnotherTier_labels {s : HomeState} {T : Tier} {i : Item} {A : Tier}
    (hwf : Wf s) (hT : T ∈ s.tierlist)
    (hA : findOriginTier s.tierlist i = some A) :
    (allItemLabels (moveTierItemToAnotherTier s T i) : Multiset (Option String))
      = (allItemLabels s : Multiset (Option String)) := by
  have hlab : (s.tierlist.map Tier.label).Nodup := hwf.2
  have hAmem := findOriginTier_mem hA
  have hrem := removeOrigin_labels hwf hA
  set tl1 := s.tierlist.map
    (fun t => if t.label = A.label then removeItemFromTier A i else t) with htl1
  have hlab1 : tl1.map Tier.label = s.tierlist.map Tier.label := by
    rw [htl1]
    exact label_map_ite (fun _ => removeItemFromTier A i) (fun t (ht : t.label = A.label) => ht.symm)
  have hlab1n : (tl1.map Tier.label).Nodup := by
    rw [hlab1]
    exact hlab
  have hTL1nodup : (tierlistLabels tl1).Nodup := by
    rw [← Multiset.coe_nodup]
    refine Multiset.nodup_of_le ?_ ((Multiset.coe_nodup).mpr (wf_tierlistLabels_nodup hwf))
    rw [← hrem]
    exact Multiset.le_add_right _ _
  have hil1 : i.label ∉ tierlistLabels tl1 := by
    intro hmem
    have hnn : ((tierlistLabels tl1 : Multiset (Option String)) + {i.label}).Nodup := by
      rw [hrem, Multiset.coe_nodup]
      exact wf_tierlistLabels_nodup hwf
    rw [Multiset.nodup_add] at hnn
    exact (Multiset.disjoint_left.mp hnn.2.2 ((Multiset.mem_coe).mpr hmem))
      (Multiset.mem_singleton_self i.label)
  have hunfold : moveTierItemToAnotherTier s T i
      = { s with
          tierlist := tl1.map (fun t => if t.label = T.label then addItemToTier t i else t),
          draggedTierItem := none } := by
    rw [htl1]
    simp [moveTierItemToAnotherTier, moveTierItemToAnotherTierTl, hA]
  suffices h2goal : (tierlistLabels (tl1.map
      (fun t => if t.label = T.label then addItemToTier t i else t))
      : Multiset (Option String)) = ↑(tierlistLabels tl1) + {i.label} by
    rw [hunfold]
    show ((s.candidatelist.map Item.label
        ++ tierlistLabels (tl1.map
          (fun t => if t.label = T.label then addItemToTier t i else t))
        : List (Option String)) : Multiset (Option String))
      = ↑(s.candidatelist.map Item.label ++ tierlistLabels s.tierlist)
    rw [← Multiset.coe_add, ← Multiset.coe_add, h2goal, ← hrem]
  by_cases hTA : T.label = A.label
  · have hT1mem : removeItemFromTier A i ∈ tl1 := by
      rw [htl1]
      have hmm := List.mem_map_of_mem
        (fun t => if t.label = A.label then removeItemFromTier A i else t) hAmem
      simpa using hmm
    have h2 := addTarget_labels hlab1n hTL1nodup hT1mem hil1
    rw [removeItemFromTier_label, ← hTA] at h2
    exact h2
  · have hT1mem : T ∈ tl1 := by
      rw [htl1]
      have hmm := List.mem_map_of_mem
        (fun t => if t.label = A.label then removeItemFromTier A i else t) hT
      simpa [hTA] using hmm
    exact addTarget_labels hlab1n hTL1nodup hT1mem hil1

theorem handleDropOnCandidateList_labels {s : HomeState} {i : Item} {A : Tier}
    (hwf : Wf s) (hsel : s.draggedTierItem = some i)
    (hA : findOriginTier s.tierlist i = some A) :
    (allItemLabels (handleDropOnCandidateList s) : Multiset (Option String))
      = (allItemLabels s : Multiset (Option String)) := by
  have hrem := removeOrigin_labels hwf hA
  have hAmem := findOriginTier_mem hA
  have hAlab := findOriginTier_label_mem hA
  have hipool : i ∉ s.candidatelist := fun hmem =>
    wf_disjoint hwf i.label (List.mem_map_of_mem Item.label hmem)
      (itemLabels_subset_tierlistLabels hAmem hAlab)
  have hnodup : (s.candidatelist ++ [i]).Nodup := by
    rw [List.nodup_append]
    exact ⟨wf_pool_nodup hwf, List.nodup_singleton i,
      fun a ha ha' => hipool ((List.mem_singleton.mp ha') ▸ ha)⟩
  have hunfold : handleDropOnCandidateList s
      = { s with
          tierlist := s.tierlist.map
            (fun t => if t.label = A.label then removeItemFromTier A i else t),
          candidatelist := jsSetOfList (s.candidatelist ++ [i]),
          draggedTierItem := none } := by
    simp [handleDropOnCandidateList, hsel, hA, addItemToCandidate]
  rw [hunfold]
  show (((jsSetOfList (s.candidatelist ++ [i])).map Item.label
      ++ tierlistLabels (s.tierlist.map
        (fun t => if t.label = A.label then removeItemFromTier A i else t))
      : List (Option String)) : Multiset (Option String))
    = ↑(s.candidatelist.map Item.label ++ tierlistLabels s.tierlist)
  rw [jsSetOfList_eq_self hnodup, List.map_append]
  rw [← Multiset.coe_add, ← Multiset.coe_add, ← Multiset.coe_add,
    show List.map Item.label [i] = [i.label] from rfl, Multiset.coe_singleton, ← hrem]
  ac_rfl

theorem tierlistLabels_empty_items (tl : List Tier) :
    tierlistLabels (tl.map (fun tier => { tier with items := ([] : List Item) })) = [] := by
  induction tl with
  | nil => rfl
  | cons t ts ih =>
      rw [List.map_cons, tierlistLabels_cons, ih]
      rfl

theorem resetList_allItemLabels {s : HomeState} (hwf : Wf s) :
    allItemLabels (resetList s) = allItemLabels s := by
  have hfold : s.tierlist.foldl (fun result tier => result ++ tier.items) []
      = (s.tierlist.map Tier.items).flatten := by
    simpa using foldl_append_items s.tierlist []
  have hlabels : (s.candidatelist ++ (s.tierlist.map Tier.items).flatten).map Item.label
      = allItemLabels s := by
    rw [List.map_append, map_label_flatten]
    rfl
  have hnodup : (s.candidatelist ++ (s.tierlist.map Tier.items).flatten).Nodup :=
    List.Nodup.of_map Item.label (by rw [hlabels]; exact hwf.1)
  show (jsSetOfList (s.candidatelist
        ++ s.tierlist.foldl (fun result tier => result ++ tier.items) [])).map Item.label
      ++ tierlistLabels (s.tierlist.map (fun tier => { tier with items := ([] : List Item) }))
    = allItemLabels s
  rw [hfold, jsSetOfList_eq_self hnodup, tierlistLabels_empty_items, List.append_nil,
    hlabels]

theorem Wf_of_labels_eq {s s' : HomeState} (hwf : Wf s)
    (hl : (allItemLabels s' : Multiset (Option String)) = ↑(allItemLabels s))
    (htier : s'.tierlist.map Tier.label = s.tierlist.map Tier.label) : Wf s' := by
  constructor
  · rw [← Multiset.coe_nodup, hl, Multiset.coe_nodup]
    exact hwf.1
  · rw [htier]
    exact hwf.2

theorem moveCandidateItemToTier_tierLabelMap (s : HomeState) (T : Tier) (i : Item) :
    (moveCandidateItemToTier s T i).tierlist.map Tier.label
      = s.tierlist.map Tier.label :=
  label_map_ite (fun t => addItemToTier t i) (fun _ _ => rfl)

theorem moveTierItemToAnotherTier_tierLabelMap (s : HomeState) (T : Tier) (i : Item) :
    (moveTierItemToAnotherTier s T i).tierlist.map Tier.label
      = s.tierlist.map Tier.label := by
  cases hA : findOriginTier s.tierlist i with
  | none => simp [moveTierItemToAnotherTier, moveTierItemToAnotherTierTl, hA]
  | some A =>
      have h1 : (moveTierItemToAnotherTier s T i).tierlist
          = ((s.tierlist.map
              (fun t => if t.label = A.label then removeItemFromTier A i else t)).map
            (fun t => if t.label = T.label then addItemToTier t i else t)) := by
        simp [moveTierItemToAnotherTier, moveTierItemToAnotherTierTl, hA]
      rw [h1, label_map_ite (fun t => addItemToTier t i) (fun _ _ => rfl),
        label_map_ite (fun _ => removeItemFromTier A i) (fun t (ht : t.label = A.label) => ht.symm)]

theorem handleDropOnCandidateList_tierLabelMap (s : HomeState) :
    (handleDropOnCandidateList s).tierlist.map Tier.label
      = s.tierlist.map Tier.label := by
  cases hsel : s.draggedTierItem with
  | none => simp [handleDropOnCandidateList, hsel]
  | some i =>
      cases hA : findOriginTier s.tierlist i with
      | none => simp [handleDropOnCandidateList, hsel, hA]
      | some A =>
          have h1 : (handleDropOnCandidateList s).tierlist
              = s.tierlist.map
                (fun t => if t.label = A.label then removeItemFromTier A i else t) := by
            simp [handleDropOnCandidateList, hsel, hA, addItemToCandidate]
          rw [h1, label_map_ite (fun _ => removeItemFromTier A i) (fun t (ht : t.label = A.label) => ht.symm)]

theorem resetList_tierLabelMap (s : HomeState) :
    (resetList s).tierlist.map Tier.label = s.tierlist.map Tier.label := by
  show (s.tierlist.map (fun tier => { tier with items := ([] : List Item) })).map Tier.label
      = s.tierlist.map Tier.label
  rw [List.map_map]
  exact List.map_congr_left (fun t _ => rfl)

theorem moveTierItemToAnotherTier_pool_sel (s : HomeState) (T : Tier) (i : Item) :
    (moveTierItemToAnotherTier s T i).candidatelist = s.candidatelist ∧
    (moveTierItemToAnotherTier s T i).draggedCandidateItem = s.draggedCandidateItem := by
  cases hA : findOriginTier s.tierlist i with
  | none => simp [moveTierItemToAnotherTier, moveTierItemToAnotherTierTl, hA]
  | some A => simp [moveTierItemToAnotherTier, moveTierItemToAnotherTierTl, hA]

theorem Wf_moveCandidateItemToTier {s : HomeState} {T : Tier} {i : Item}
    (hwf : Wf s) (hi : i ∈ s.candidatelist) (hT : T ∈ s.tierlist) :
    Wf (moveCandidateItemToTier s T i) :=
  Wf_of_labels_eq hwf (moveCandidateItemToTier_labels hwf hi hT)
    (moveCandidateItemToTier_tierLabelMap s T i)

theorem Wf_moveTierItemToAnotherTier {s : HomeState} {T : Tier} {i : Item}
    (hwf : Wf s) (hT : T ∈ s.tierlist) :
    Wf (moveTierItemToAnotherTier s T i) := by
  cases hA : findOriginTier s.tierlist i with
  | none =>
      have hid : moveTierItemToAnotherTier s T i = s := by
        simp [moveTierItemToAnotherTier, moveTierItemToAnotherTierTl, hA]
      rw [hid]
      exact hwf
  | some A =>
      exact Wf_of_labels_eq hwf (moveTierItemToAnotherTier_labels hwf hT hA)
        (moveTierItemToAnotherTier_tierLabelMap s T i)

theorem Wf_handleDropOnCandidateList {s : HomeState} (hwf : Wf s) :
    Wf (handleDropOnCandidateList s) := by
  cases hsel : s.draggedTierItem with
  | none =>
      have hid : handleDropOnCandidateList s = s := by
        simp [handleDropOnCandidateList, hsel]
      rw [hid]
      exact hwf
  | some i =>
      cases hA : findOriginTier s.tierlist i with
      | none =>
          have hid : handleDropOnCandidateList s = s := by
            simp [handleDropOnCandidateList, hsel, hA]
          rw [hid]
          exact hwf
      | some A =>
          exact Wf_of_labels_eq hwf (handleDropOnCandidateList_labels hwf hsel hA)
            (handleDropOnCandidateList_tierLabelMap s)

theorem Wf_resetList {s : HomeState} (hwf : Wf s) : Wf (resetList s) :=
  Wf_of_labels_eq hwf (by rw [resetList_allItemLabels hwf]) (resetList_tierLabelMap s)

theorem handleDropOnCandidateList_pool_mono {s : HomeState} {x : Item}
    (hx : x ∈ s.candidatelist) : x ∈ (handleDropOnCandidateList s).candidatelist := by
  cases hsel : s.draggedTierItem with
  | none => simpa [handleDropOnCandidateList, hsel] using hx
  | some i =>
      cases hA : findOriginTier s.tierlist i with
      | none => simpa [handleDropOnCandidateList, hsel, hA] using hx
      | some A =>
          have h1 : (handleDropOnCandidateList s).candidatelist
              = jsSetOfList (s.candidatelist ++ [i]) := by
            simp [handleDropOnCandidateList, hsel, hA, addItemToCandidate]
          rw [h1, mem_jsSetOfList]
          exact List.mem_append.mpr (Or.inl hx)

theorem handleDropOnCandidateList_selC (s : HomeState) :
    (handleDropOnCandidateList s).draggedCandidateItem = s.draggedCandidateItem := by
  cases hsel : s.draggedTierItem with
  | none => simp [handleDropOnCandidateList, hsel]
  | some i =>
      cases hA : findOriginTier s.tierlist i with
      | none => simp [handleDropOnCandidateList, hsel, hA]
      | some A => simp [handleDropOnCandidateList, hsel, hA, addItemToCandidate]

theorem resetList_pool_mono {s : HomeState} {x : Item}
    (hx : x ∈ s.candidatelist) : x ∈ (resetList s).candidatelist := by
  show x ∈ jsSetOfList (s.candidatelist
    ++ s.tierlist.foldl (fun result tier => result ++ tier.items) [])
  rw [mem_jsSetOfList]
  exact List.mem_append.mpr (Or.inl hx)

theorem step_preserves_Inv {s : HomeState} (h : Inv s) (op : Op) : Inv (step s op) := by
  obtain ⟨hwf, hsel⟩ := h
  cases op with
  | beginDragPool item =>
      by_cases hmem : item ∈ s.candidatelist
      · simp only [step]
        rw [if_pos hmem]
        refine ⟨hwf, fun j hj => ?_⟩
        have hj' : some item = some j := hj
        exact (Option.some.inj hj') ▸ hmem
      · simp only [step]
        rw [if_neg hmem]
        exact ⟨hwf, hsel⟩
  | beginDragTier item =>
      by_cases hmem : ∃ t ∈ s.tierlist, item ∈ t.items
      · simp only [step]
        rw [if_pos hmem]
        exact ⟨hwf, hsel⟩
      · simp only [step]
        rw [if_neg hmem]
        exact ⟨hwf, hsel⟩
  | endDragPool =>
      exact ⟨hwf, fun j hj => Option.noConfusion hj⟩
  | endDragTier =>
      exact ⟨hwf, hsel⟩
  | dropOnTierPoolOrigin tier =>
      simp only [step]
      by_cases htier : tier ∈ s.tierlist
      · rw [if_pos htier]
        cases hc : s.draggedCandidateItem with
        | none => exact ⟨hwf, hsel⟩
        | some item =>
            refine ⟨Wf_moveCandidateItemToTier hwf (hsel item hc) htier,
              fun j hj => Option.noConfusion hj⟩
      · rw [if_neg htier]
        exact ⟨hwf, hsel⟩
  | dropOnTierTierOrigin tier =>
      simp only [step]
      by_cases htier : tier ∈ s.tierlist
      · rw [if_pos htier]
        cases hc : s.draggedTierItem with
        | none => exact ⟨hwf, hsel⟩
        | some item =>
            obtain ⟨hpool, hselc⟩ := moveTierItemToAnotherTier_pool_sel s tier item
            refine ⟨Wf_moveTierItemToAnotherTier hwf htier, fun j hj => ?_⟩
            rw [hselc] at hj
            rw [hpool]
            exact hsel j hj
      · rw [if_neg htier]
        exact ⟨hwf, hsel⟩
  | dropOnPool =>
      refine ⟨Wf_handleDropOnCandidateList hwf, fun j hj => ?_⟩
      rw [show (step s Op.dropOnPool).draggedCandidateItem
          = (handleDropOnCandidateList s).draggedCandidateItem from rfl,
        handleDropOnCandidateList_selC] at hj
      exact handleDropOnCandidateList_pool_mono (hsel j hj)
  | reset =>
      exact ⟨Wf_resetList hwf, fun j hj => resetList_pool_mono (hsel j hj)⟩

theorem foldl_step_Inv (ops : List Op) {s : HomeState} (h : Inv s) :
    Inv (List.foldl step s ops) := by
  induction ops generalizing s with
  | nil => exact h
  | cons op rest ih => exact ih (step_preserves_Inv h op)

theorem seed_Inv : Inv seedState := by
  refine ⟨by decide, fun i hi => ?_⟩
  exact Option.noConfusion hi

/-- C1: in a well-formed state whose pool-origin drag selection is an item I
of the candidate pool and whose tier-origin selection is empty, dropping on a
tier T of the tier list removes I from the pool, puts I into the tier labelled
T, into no other tier, keeps the total item count unchanged and clears the
pool-origin drag selection. -/
theorem C1_pool_to_tier (s : HomeState) (T : Tier) (I : Item)
    (hwf : Wf s) (hI : I ∈ s.candidatelist) (hT : T ∈ s.tierlist)
    (hselc : s.draggedCandidateItem = some I) (hselt : s.draggedTierItem = none) :
    I ∉ (handleDropOnTierList s T).candidatelist ∧
    (∀ t' ∈ (handleDropOnTierList s T).tierlist, t'.label = T.label → I ∈ t'.items) ∧
    (∀ t' ∈ (handleDropOnTierList s T).tierlist, t'.label ≠ T.label → I ∉ t'.items) ∧
    totalItemCount (handleDropOnTierList s T) = totalItemCount s ∧
    (handleDropOnTierList s T).draggedCandidateItem = none := by
  have hstep : handleDropOnTierList s T = moveCandidateItemToTier s T I := by
    simp [handleDropOnTierList, hselc, hselt]
  rw [hstep]
  refine ⟨?_, ?_, ?_, ?_, rfl⟩
  · intro hmem
    have h2 := (List.mem_filter.mp hmem).2
    simp at h2
  · intro t' ht' hlabel
    obtain ⟨t, ht, heq⟩ := List.mem_map.mp ht'
    by_cases hl : t.label = T.label
    · rw [← heq, if_pos hl]
      exact mem_addItemToTier t I
    · rw [← heq, if_neg hl] at hlabel
      exact absurd hlabel hl
  · intro t' ht' hlabel hmem
    obtain ⟨t, ht, heq⟩ := List.mem_map.mp ht'
    by_cases hl : t.label = T.label
    · rw [← heq, if_pos hl] at hlabel
      exact hlabel hl
    · rw [← heq, if_neg hl] at hmem
      exact wf_disjoint hwf I.label (List.mem_map_of_mem Item.label hI)
        (itemLabels_subset_tierlistLabels ht (List.mem_map_of_mem Item.label hmem))
  · have hl := moveCandidateItemToTier_labels hwf hI hT
    have hc := congrArg Multiset.card hl
    rw [Multiset.coe_card, Multiset.coe_card] at hc
    rw [← length_allItemLabels, ← length_allItemLabels]
    exact hc

/-- Witness for C1: the seed state, dragging Item 1 from the pool onto
tier A. -/
theorem C1_pool_to_tier_witness :
    item1 ∉ (handleDropOnTierList (dragCandidateItem seedState item1)
      { label := "A", colorClass := some "bg-sky-500 text-white", items := [] }).candidatelist ∧
    (∀ t' ∈ (handleDropOnTierList (dragCandidateItem seedState item1)
      { label := "A", colorClass := some "bg-sky-500 text-white", items := [] }).tierlist,
      t'.label = "A" → item1 ∈ t'.items) ∧
    (∀ t' ∈ (handleDropOnTierList (dragCandidateItem seedState item1)
      { label := "A", colorClass := some "bg-sky-500 text-white", items := [] }).tierlist,
      t'.label ≠ "A" → item1 ∉ t'.items) ∧
    totalItemCount (handleDropOnTierList (dragCandidateItem seedState item1)
      { label := "A", colorClass := some "bg-sky-500 text-white", items := [] })
      = totalItemCount (dragCandidateItem seedState item1) ∧
    (handleDropOnTierList (dragCandidateItem seedState item1)
      { label := "A", colorClass := some "bg-sky-500 text-white", items := [] }).draggedCandidateItem
      = none :=
  C1_pool_to_tier (dragCandidateItem seedState item1)
    { label := "A", colorClass := some "bg-sky-500 text-white", items := [] } item1
    (by decide) (by decide) (by decide) rfl rfl

/-- C3: in every state reachable from the seed state by any sequence of the
state-machine operations, no item label occurs twice across the candidate
pool and the tiers; consequently an item sitting in some tier is (by label)
not also in the pool, and an item's label determines a unique tier. -/
theorem C3_location_invariant (ops : List Op) :
    (allItemLabels (List.foldl step seedState ops)).Nodup ∧
    (∀ x : Item, ∀ t ∈ (List.foldl step seedState ops).tierlist, x ∈ t.items →
      x.label ∉ (List.foldl step seedState ops).candidatelist.map Item.label) ∧
    (∀ t ∈ (List.foldl step seedState ops).tierlist,
      ∀ t' ∈ (List.foldl step seedState ops).tierlist,
      ∀ x ∈ t.items, ∀ y ∈ t'.items, x.label = y.label → t = t') := by
  obtain ⟨hwf, _⟩ := foldl_step_Inv ops seed_Inv
  refine ⟨hwf.1, ?_, ?_⟩
  · intro x t ht hx hmem
    exact wf_disjoint hwf x.label hmem
      (itemLabels_subset_tierlistLabels ht (List.mem_map_of_mem Item.label hx))
  · intro t ht t' ht' x hx y hy hxy
    exact tier_eq_of_label_mem (wf_tierlistLabels_nodup hwf) ht ht'
      (List.mem_map_of_mem Item.label hx)
      (hxy.symm ▸ List.mem_map_of_mem Item.label hy)

/-- Witness for C3: the invariant at the seed state (the empty operation
sequence), with the pool-exclusion clause discharged for the Vivo item sitting
in tier S. -/
theorem C3_location_invariant_witness :
    (allItemLabels (List.foldl step seedState [])).Nodup ∧
    vivo.label ∉ (List.foldl step seedState []).candidatelist.map Item.label :=
  ⟨(C3_location_invariant []).1,
    (C3_location_invariant []).2.1 vivo
      { label := "S", colorClass := some "bg-indigo-500 text-white", items := [vivo] }
      (by decide) (by decide)⟩

/-- C2: in a well-formed state whose tier-origin drag selection is an item I
of tier A and whose pool-origin selection is empty, dropping on a different
tier B of the tier list removes I from the tier labelled A, puts it into the
tier labelled B, keeps the total item count unchanged and clears the
tier-origin drag selection. -/
theorem C2_tier_to_tier (s : HomeState) (A B : Tier) (I : Item)
    (hwf : Wf s) (hA : A ∈ s.tierlist) (hB : B ∈ s.tierlist) (hI : I ∈ A.items)
    (hAB : A ≠ B)
    (hselc : s.draggedCandidateItem = none) (hselt : s.draggedTierItem = some I) :
    (∀ t' ∈ (handleDropOnTierList s B).tierlist, t'.label = A.label → I ∉ t'.items) ∧
    (∀ t' ∈ (handleDropOnTierList s B).tierlist, t'.label = B.label → I ∈ t'.items) ∧
    totalItemCount (handleDropOnTierList s B) = totalItemCount s ∧
    (handleDropOnTierList s B).draggedTierItem = none := by
  have hABlab : A.label ≠ B.label := fun h =>
    hAB (List.inj_on_of_nodup_map hwf.2 hA hB h)
  have hfind : findOriginTier s.tierlist I = some A :=
    findOriginTier_eq (wf_tierlistLabels_nodup hwf) hA (List.mem_map_of_mem Item.label hI)
  have hstep : handleDropOnTierList s B = moveTierItemToAnotherTier s B I := by
    simp [handleDropOnTierList, hselc, hselt, moveTierItemToAnotherTier]
  have hcount : totalItemCount (moveTierItemToAnotherTier s B I) = totalItemCount s := by
    have hl := moveTierItemToAnotherTier_labels hwf hB hfind
    have hc := congrArg Multiset.card hl
    rw [Multiset.coe_card, Multiset.coe_card] at hc
    rw [← length_allItemLabels, ← length_allItemLabels]
    exact hc
  have hunfold : moveTierItemToAnotherTier s B I
      = { s with
          tierlist := (s.tierlist.map
              (fun t => if t.label = A.label then removeItemFromTier A I else t)).map
            (fun t => if t.label = B.label then addItemToTier t I else t),
          draggedTierItem := none } := by
    simp [moveTierItemToAnotherTier, moveTierItemToAnotherTierTl, hfind]
  rw [hunfold] at hcount
  rw [hstep, hunfold]
  refine ⟨?_, ?_, hcount, rfl⟩
  · intro t' ht' hlab hmem
    rw [List.map_map] at ht'
    obtain ⟨t, ht, heq⟩ := List.mem_map.mp ht'
    by_cases htA : t.label = A.label
    · have heq' : t' = removeItemFromTier A I := by
        rw [← heq]
        simp only [Function.comp_apply]
        rw [if_pos htA, if_neg (show ¬(removeItemFromTier A I).label = B.label from hABlab)]
      rw [heq'] at hmem
      have h2 := (List.mem_filter.mp ((mem_jsSetOfList _).mp hmem)).2
      simp at h2
    · by_cases htB : t.label = B.label
      · have heq' : t' = addItemToTier t I := by
          rw [← heq]
          simp only [Function.comp_apply]
          rw [if_neg htA, if_pos htB]
        rw [heq'] at hlab
        exact htA hlab
      · have heq' : t' = t := by
          rw [← heq]
          simp only [Function.comp_apply]
          rw [if_neg htA, if_neg htB]
        rw [heq'] at hlab
        exact htA hlab
  · intro t' ht' hlab
    rw [List.map_map] at ht'
    obtain ⟨t, ht, heq⟩ := List.mem_map.mp ht'
    by_cases htA : t.label = A.label
    · have heq' : t' = removeItemFromTier A I := by
        rw [← heq]
        simp only [Function.comp_apply]
        rw [if_pos htA, if_neg (show ¬(removeItemFromTier A I).label = B.label from hABlab)]
      rw [heq'] at hlab
      exact absurd hlab hABlab
    · by_cases htB : t.label = B.label
      · have heq' : t' = addItemToTier t I := by
          rw [← heq]
          simp only [Function.comp_apply]
          rw [if_neg htA, if_pos htB]
        rw [heq']
        exact mem_addItemToTier t I
      · have heq' : t' = t := by
          rw [← heq]
          simp only [Function.comp_apply]
          rw [if_neg htA, if_neg htB]
        rw [heq'] at hlab
        exact absurd hlab htB

/-- Witness for C2: the seed state, dragging Vivo out of tier S onto
tier A. -/
theorem C2_tier_to_tier_witness :
    (∀ t' ∈ (handleDropOnTierList (dragTierItem seedState vivo)
        { label := "A", colorClass := some "bg-sky-500 text-white", items := [] }).tierlist,
      t'.label = "S" → vivo ∉ t'.items) ∧
    (∀ t' ∈ (handleDropOnTierList (dragTierItem seedState vivo)
        { label := "A", colorClass := some "bg-sky-500 text-white", items := [] }).tierlist,
      t'.label = "A" → vivo ∈ t'.items) ∧
    totalItemCount (handleDropOnTierList (dragTierItem seedState vivo)
        { label := "A", colorClass := some "bg-sky-500 text-white", items := [] })
      = totalItemCount (dragTierItem seedState vivo) ∧
    (handleDropOnTierList (dragTierItem seedState vivo)
        { label := "A", colorClass := some "bg-sky-500 text-white", items := [] }).draggedTierItem
      = none :=
  C2_tier_to_tier (dragTierItem seedState vivo)
    { label := "S", colorClass := some "bg-indigo-500 text-white", items := [vivo] }
    { label := "A", colorClass := some "bg-sky-500 text-white", items := [] } vivo
    (by decide) (by decide) (by decide) (by decide) (by decide) rfl rfl

/-- C6: in a well-formed state whose tier-origin drag selection is an item I
of tier T, dropping back on the same tier T leaves the candidate pool, the
tier labels, and every other tier unchanged, and the tier labelled T holds
exactly the same items as before: I is neither duplicated (it occurs once)
nor lost. -/
theorem C6_same_tier_drop (s : HomeState) (T : Tier) (I : Item)
    (hwf : Wf s) (hT : T ∈ s.tierlist) (hI : I ∈ T.items)
    (hselc : s.draggedCandidateItem = none) (hselt : s.draggedTierItem = some I) :
    (handleDropOnTierList s T).candidatelist = s.candidatelist ∧
    (handleDropOnTierList s T).tierlist.map Tier.label = s.tierlist.map Tier.label ∧
    (∀ t' ∈ (handleDropOnTierList s T).tierlist, t'.label ≠ T.label → t' ∈ s.tierlist) ∧
    (∀ t' ∈ (handleDropOnTierList s T).tierlist, t'.label = T.label →
      (∀ x : Item, x ∈ t'.items ↔ x ∈ T.items) ∧ t'.items.count I = 1) := by
  have hfind : findOriginTier s.tierlist I = some T :=
    findOriginTier_eq (wf_tierlistLabels_nodup hwf) hT (List.mem_map_of_mem Item.label hI)
  have hstep : handleDropOnTierList s T = moveTierItemToAnotherTier s T I := by
    simp [handleDropOnTierList, hselc, hselt, moveTierItemToAnotherTier]
  have hlabmap : (moveTierItemToAnotherTier s T I).tierlist.map Tier.label
      = s.tierlist.map Tier.label := moveTierItemToAnotherTier_tierLabelMap s T I
  have hunfold : moveTierItemToAnotherTier s T I
      = { s with
          tierlist := (s.tierlist.map
              (fun t => if t.label = T.label then removeItemFromTier T I else t)).map
            (fun t => if t.label = T.label then addItemToTier t I else t),
          draggedTierItem := none } := by
    simp [moveTierItemToAnotherTier, moveTierItemToAnotherTierTl, hfind]
  have hTitemsNodup : T.items.Nodup := wf_tier_items_nodup hwf hT
  have hTlabelsNodup : T.itemLabels.Nodup :=
    itemLabels_nodup_of_mem (wf_tierlistLabels_nodup hwf) hT
  have hInotfilter : I ∉ T.items.filter (fun x => x.label ≠ I.label) := by
    intro hmem
    have h2 := (List.mem_filter.mp hmem).2
    simp at h2
  have hadditems : (addItemToTier (removeItemFromTier T I) I).items
      = T.items.filter (fun x => x.label ≠ I.label) ++ [I] := by
    show jsSetOfList ((removeItemFromTier T I).items ++ [I]) = _
    rw [show (removeItemFromTier T I).items
        = jsSetOfList (T.items.filter (fun x => x.label ≠ I.label)) from rfl]
    rw [jsSetOfList_eq_self (hTitemsNodup.filter _)]
    refine jsSetOfList_eq_self ?_
    rw [List.nodup_append]
    exact ⟨hTitemsNodup.filter _, List.nodup_singleton I,
      fun a ha ha' => hInotfilter ((List.mem_singleton.mp ha') ▸ ha)⟩
  rw [hunfold] at hlabmap
  rw [hstep, hunfold]
  refine ⟨rfl, hlabmap, ?_, ?_⟩
  · intro t' ht' hlab
    rw [List.map_map] at ht'
    obtain ⟨t, ht, heq⟩ := List.mem_map.mp ht'
    by_cases htT : t.label = T.label
    · have heq' : t' = addItemToTier (removeItemFromTier T I) I := by
        rw [← heq]
        simp only [Function.comp_apply]
        rw [if_pos htT, if_pos (show (removeItemFromTier T I).label = T.label from rfl)]
      rw [heq'] at hlab
      exact absurd rfl hlab
    · have heq' : t' = t := by
        rw [← heq]
        simp only [Function.comp_apply]
        rw [if_neg htT, if_neg htT]
      rw [heq']
      exact ht
  · intro t' ht' hlab
    rw [List.map_map] at ht'
    obtain ⟨t, ht, heq⟩ := List.mem_map.mp ht'
    by_cases htT : t.label = T.label
    · have heq' : t' = addItemToTier (removeItemFromTier T I) I := by
        rw [← heq]
        simp only [Function.comp_apply]
        rw [if_pos htT, if_pos (show (removeItemFromTier T I).label = T.label from rfl)]
      rw [heq']
      constructor
      · intro x
        rw [hadditems, List.mem_append, List.mem_filter, List.mem_singleton]
        constructor
        · rintro (⟨hx, _⟩ | rfl)
          · exact hx
          · exact hI
        · intro hx
          by_cases hxl : x.label = I.label
          · exact Or.inr (List.inj_on_of_nodup_map hTlabelsNodup hx hI hxl)
          · exact Or.inl ⟨hx, decide_eq_true hxl⟩
      · rw [hadditems, List.count_append, List.count_eq_zero.mpr hInotfilter]
        simp
    · have heq' : t' = t := by
        rw [← heq]
        simp only [Function.comp_apply]
        rw [if_neg htT, if_neg htT]
      rw [heq'] at hlab
      exact absurd hlab htT

/-- Witness for C6: the seed state, dragging Vivo and dropping it back on its
own tier S. -/
theorem C6_same_tier_drop_witness :
    (handleDropOnTierList (dragTierItem seedState vivo)
        { label := "S", colorClass := some "bg-indigo-500 text-white",
          items := [vivo] }).candidatelist
      = (dragTierItem seedState vivo).candidatelist ∧
    (handleDropOnTierList (dragTierItem seedState vivo)
        { label := "S", colorClass := some "bg-indigo-500 text-white",
          items := [vivo] }).tierlist.map Tier.label
      = (dragTierItem seedState vivo).tierlist.map Tier.label :=
  ⟨(C6_same_tier_drop (dragTierItem seedState vivo)
      { label := "S", colorClass := some "bg-indigo-500 text-white", items := [vivo] }
      vivo (by decide) (by decide) (by decide) rfl rfl).1,
    (C6_same_tier_drop (dragTierItem seedState vivo)
      { label := "S", colorClass := some "bg-indigo-500 text-white", items := [vivo] }
      vivo (by decide) (by decide) (by decide) rfl rfl).2.1⟩

/-- C7: reset empties every tier and the new pool holds exactly the union of
the old pool and all tier items; in particular, from the seed state (tier S
holding Vivo, all other tiers empty, pool holding Items 1-3), reset yields the
pool Item 1, Item 2, Item 3, Vivo and all tiers empty. -/
theorem C7_reset (s : HomeState) :
    (∀ x : Item, x ∈ (resetList s).candidatelist ↔
      (x ∈ s.candidatelist ∨ ∃ t ∈ s.tierlist, x ∈ t.items)) ∧
    (∀ t' ∈ (resetList s).tierlist, t'.items = []) ∧
    (resetList seedState).candidatelist = [item1, item2, item3, vivo] ∧
    (resetList seedState).tierlist.map Tier.items = [[], [], [], [], [], [], []] := by
  have hfold : ∀ s' : HomeState,
      s'.tierlist.foldl (fun result tier => result ++ tier.items) []
        = (s'.tierlist.map Tier.items).flatten := by
    intro s'
    simpa using foldl_append_items s'.tierlist []
  refine ⟨?_, ?_, ?_, ?_⟩
  · intro x
    show x ∈ jsSetOfList (s.candidatelist
        ++ s.tierlist.foldl (fun result tier => result ++ tier.items) []) ↔ _
    rw [mem_jsSetOfList, List.mem_append, hfold s, List.mem_flatten]
    constructor
    · rintro (h | ⟨l, hl, hx⟩)
      · exact Or.inl h
      · obtain ⟨t, ht, rfl⟩ := List.mem_map.mp hl
        exact Or.inr ⟨t, ht, hx⟩
    · rintro (h | ⟨t, ht, hx⟩)
      · exact Or.inl h
      · exact Or.inr ⟨t.items, List.mem_map_of_mem Tier.items ht, hx⟩
  · intro t' ht'
    obtain ⟨t, ht, heq⟩ := List.mem_map.mp ht'
    rw [← heq]
  · have hn : (seedState.candidatelist
        ++ seedState.tierlist.foldl
          (fun (result : List Item) (tier : Tier) => result ++ tier.items) []).Nodup := by
      decide
    show jsSetOfList (seedState.candidatelist
        ++ seedState.tierlist.foldl (fun result tier => result ++ tier.items) [])
      = [item1, item2, item3, vivo]
    rw [jsSetOfList_eq_self hn]
    rfl
  · rfl

/-- Witness for C7: the concrete reset of the seed state, plus the
emptied-tier clause discharged at the S tier of the reset state. -/
theorem C7_reset_witness :
    (resetList seedState).candidatelist = [item1, item2, item3, vivo] ∧
    ({ label := "S", colorClass := some "bg-indigo-500 text-white",
        items := ([] : List Item) } : Tier).items = [] :=
  ⟨(C7_reset seedState).2.2.1,
    (C7_reset seedState).2.1
      { label := "S", colorClass := some "bg-indigo-500 text-white", items := [] }
      (by decide)⟩

/-- C8: drops whose precondition fails are silent no-ops on the whole state:
a drop on the pool with no tier-origin selection (in particular a pool-origin
drop on the pool), a drop on a tier with no selection at all, and a
tier-origin drop (on a tier or on the pool) whose origin scan finds no tier
holding the dragged item's label.  All handlers are total, so no failure is
raised. -/
theorem C8_silent_noops (s : HomeState) (T : Tier) (I : Item) :
    (s.draggedTierItem = none → handleDropOnCandidateList s = s) ∧
    (s.draggedCandidateItem = none → s.draggedTierItem = none →
      handleDropOnTierList s T = s) ∧
    (s.draggedTierItem = some I → findOriginTier s.tierlist I = none →
      handleDropOnCandidateList s = s ∧
      (s.draggedCandidateItem = none → handleDropOnTierList s T = s)) := by
  refine ⟨?_, ?_, ?_⟩
  · intro h
    simp [handleDropOnCandidateList, h]
  · intro hc ht
    simp [handleDropOnTierList, hc, ht]
  · intro ht hfind
    refine ⟨?_, ?_⟩
    · simp [handleDropOnCandidateList, ht, hfind]
    · intro hc
      simp [handleDropOnTierList, hc, ht, moveTierItemToAnotherTierTl, hfind]

/-- Witness for C8: the seed state with no selection, and the seed state
dragging a ghost item whose label occurs in no tier. -/
theorem C8_silent_noops_witness :
    handleDropOnCandidateList seedState = seedState ∧
    handleDropOnTierList seedState
        { label := "A", colorClass := some "bg-sky-500 text-white", items := [] }
      = seedState ∧
    handleDropOnCandidateList
        (dragTierItem seedState { ref := 9, label := some "Ghost", imgSrc := none })
      = dragTierItem seedState { ref := 9, label := some "Ghost", imgSrc := none } ∧
    handleDropOnTierList
        (dragTierItem seedState { ref := 9, label := some "Ghost", imgSrc := none })
        { label := "A", colorClass := some "bg-sky-500 text-white", items := [] }
      = dragTierItem seedState { ref := 9, label := some "Ghost", imgSrc := none } := by
  have h1 := C8_silent_noops seedState
    { label := "A", colorClass := some "bg-sky-500 text-white", items := [] }
    { ref := 9, label := some "Ghost", imgSrc := none }
  have h2 := C8_silent_noops
    (dragTierItem seedState { ref := 9, label := some "Ghost", imgSrc := none })
    { label := "A", colorClass := some "bg-sky-500 text-white", items := [] }
    { ref := 9, label := some "Ghost", imgSrc := none }
  have hg := h2.2.2 rfl (by decide)
  exact ⟨h1.1 rfl, h1.2.1 rfl rfl, hg.1, hg.2 rfl⟩

/-- C10: pool removal during a pool-to-tier move deletes by object identity,
so a pool item that is label-equal but not reference-equal to the dragged item
survives the move while the dragged item is still appended to the target tier;
tier removal instead filters by label and removes every item sharing the
dragged label. -/
theorem C10_identity_vs_label (s : HomeState) (T : Tier) (I J : Item)
    (hJ : J ∈ s.candidatelist) (hlab : J.label = I.label) (hne : J ≠ I)
    (hT : T ∈ s.tierlist) :
    J ∈ (moveCandidateItemToTier s T I).candidatelist ∧
    (∃ t' ∈ (moveCandidateItemToTier s T I).tierlist, t'.label = T.label ∧ I ∈ t'.items) ∧
    (∀ (t : Tier) (x : Item), x ∈ t.items → x.label = I.label →
      x ∉ (removeItemFromTier t I).items) := by
  refine ⟨?_, ?_, ?_⟩
  · show J ∈ s.candidatelist.filter (fun i => i ≠ I)
    rw [List.mem_filter]
    exact ⟨hJ, decide_eq_true hne⟩
  · refine ⟨addItemToTier T I, ?_, rfl, mem_addItemToTier T I⟩
    show addItemToTier T I
      ∈ s.tierlist.map (fun t => if t.label = T.label then addItemToTier t I else t)
    have hmm := List.mem_map_of_mem
      (fun t => if t.label = T.label then addItemToTier t I else t) hT
    simpa using hmm
  · intro t x hx hxl hmem
    have h2 := (List.mem_filter.mp ((mem_jsSetOfList _).mp hmem)).2
    exact (of_decide_eq_true h2) hxl

/-- Witness for C10: a pool holding two distinct items that share the label X,
dragging the first onto tier A of the seed tier list. -/
theorem C10_identity_vs_label_witness :
    ({ ref := 11, label := some "X", imgSrc := none } : Item)
      ∈ (moveCandidateItemToTier
        { tierlist := seedTierlist,
          candidatelist := [{ ref := 10, label := some "X", imgSrc := none },
            { ref := 11, label := some "X", imgSrc := none }],
          draggedCandidateItem := some { ref := 10, label := some "X", imgSrc := none },
          draggedTierItem := none }
        { label := "A", colorClass := some "bg-sky-500 text-white", items := [] }
        { ref := 10, label := some "X", imgSrc := none }).candidatelist ∧
    (∃ t' ∈ (moveCandidateItemToTier
        { tierlist := seedTierlist,
          candidatelist := [{ ref := 10, label := some "X", imgSrc := none },
            { ref := 11, label := some "X", imgSrc := none }],
          draggedCandidateItem := some { ref := 10, label := some "X", imgSrc := none },
          draggedTierItem := none }
        { label := "A", colorClass := some "bg-sky-500 text-white", items := [] }
        { ref := 10, label := some "X", imgSrc := none }).tierlist,
      t'.label = "A" ∧ { ref := 10, label := some "X", imgSrc := none } ∈ t'.items) :=
  ⟨(C10_identity_vs_label
      { tierlist := seedTierlist,
        candidatelist := [{ ref := 10, label := some "X", imgSrc := none },
          { ref := 11, label := some "X", imgSrc := none }],
        draggedCandidateItem := some { ref := 10, label := some "X", imgSrc := none },
        draggedTierItem := none }
      { label := "A", colorClass := some "bg-sky-500 text-white", items := [] }
      { ref := 10, label := some "X", imgSrc := none }
      { ref := 11, label := some "X", imgSrc := none }
      (by decide) (by decide) (by decide) (by decide)).1,
    (C10_identity_vs_label
      { tierlist := seedTierlist,
        candidatelist := [{ ref := 10, label := some "X", imgSrc := none },
          { ref := 11, label := some "X", imgSrc := none }],
        draggedCandidateItem := some { ref := 10, label := some "X", imgSrc := none },
        draggedTierItem := none }
      { label := "A", colorClass := some "bg-sky-500 text-white", items := [] }
      { ref := 10, label := some "X", imgSrc := none }
      { ref := 11, label := some "X", imgSrc := none }
      (by decide) (by decide) (by decide) (by decide)).2.1⟩

end Tierlist
